import Mathlib

/-!
Shallow embedding of the `projectOverview` data adapter and the
`StatusColumn` component from the Prosjektportalen 365 add-ons repository
(`src/projectOverview/data-adapter/index.ts` and
`src/projectOverview/components/StatusColumn/index.tsx`).

JavaScript objects used as dictionaries are modelled as association lists
with insertion-order preservation and last-write-wins assignment; JavaScript
truthiness of strings and numbers is modelled explicitly; asynchronous
platform calls are modelled by passing in their results, and in the
error-propagation model by `Except` values.
-/

set_option autoImplicit false

namespace ProjectOverview

/-- Truthiness of a possibly-undefined JavaScript string value:
`undefined` and the empty string are falsy. -/
def jsTruthyStr : Option String → Bool
  | none => false
  | some s => s ≠ ""

/-- Truthiness of a possibly-undefined JavaScript number value (modelled as
`Nat`): `undefined` and `0` are falsy. -/
def jsTruthyNat : Option Nat → Bool
  | none => false
  | some n => n ≠ 0

/-- `a || b` for a possibly-undefined string `a`: `b` when `a` is falsy. -/
def jsOrStr (a : Option String) (b : String) : String :=
  if jsTruthyStr a then a.getD b else b

/-- `a || b` for a possibly-undefined number `a`: `b` when `a` is falsy. -/
def jsOrNat (a : Option Nat) (b : Nat) : Nat :=
  if jsTruthyNat a then a.getD b else b

/-- A JavaScript object used as a string-keyed dictionary: an association
list in insertion order, with unique keys maintained by `objSet`. -/
abbrev JsObj (α : Type) : Type := List (String × α)

/-- Property read `obj[k]`: the value at key `k`, `none` for `undefined`. -/
def objGet {α : Type} : JsObj α → String → Option α
  | [], _ => none
  | (k', v) :: rest, k => if k' = k then some v else objGet rest k

/-- Property write `obj[k] = v` (also `{...obj, [k]: v}`): replaces the
value at an existing key in place, otherwise appends the new key at the
end, as JavaScript insertion order does. -/
def objSet {α : Type} (obj : JsObj α) (k : String) (v : α) : JsObj α :=
  match obj with
  | [] => [(k, v)]
  | (k', v') :: rest =>
      if k' = k then (k', v) :: rest else (k', v') :: objSet rest k v

/-- The empty object `{}`. -/
def objEmpty {α : Type} : JsObj α := []

theorem objGet_objSet {α : Type} (obj : JsObj α) (k k' : String) (v : α) :
    objGet (objSet obj k v) k' = if k = k' then some v else objGet obj k' := by
  induction obj with
  | nil => simp [objSet, objGet]
  | cons p rest ih =>
      obtain ⟨k₀, v₀⟩ := p
      by_cases h0 : k₀ = k
      · subst h0
        by_cases h : k₀ = k'
        · simp [objSet, objGet, h]
        · simp [objSet, objGet, h]
      · by_cases h : k₀ = k'
        · subst h
          have : ¬ (k = k₀) := fun e => h0 e.symm
          simp [objSet, objGet, h0, this]
        · simp [objSet, objGet, h0, h, ih]

/-! ## Data model

Item shapes mirror the interfaces consumed by the adapter.  The interface
and model declarations live in `src/projectOverview/models`, which is not
part of the provided sources; each such definition is modelled from the
spec and carries only the fields the adapter code reads. -/

/-- A row of the portfolio configuration list (`ID`, `Title`, `URL`,
`IconName`). Modelled from the spec: the `IPortfolioItem` interface is in
the missing `models` module. -/
structure IPortfolioItem where
  ID : String
  Title : String
  URL : String
  IconName : String
deriving Repr, DecidableEq

/-- A portfolio configuration. Modelled from the spec: the `Portfolio`
class is in the missing `models` module; the adapter reads its `id` and
`url`. -/
structure Portfolio where
  id : String
  title : String
  url : String
deriving Repr, DecidableEq

/-- A row of the projects list; the adapter reads `GtSiteId`. Modelled
from the spec: the `IProjectItem` interface is in the missing `models`
module. -/
structure IProjectItem where
  GtSiteId : String
  Title : String
deriving Repr, DecidableEq

/-- A row of the project status list. Modelled from the spec: the
`IProjectStatusItem` interface is in the missing `models` module. -/
structure IProjectStatusItem where
  Id : Nat
  GtSiteId : String
deriving Repr, DecidableEq

/-- A row of the status sections list (`GtSecFieldName`, `GtSecIcon`). -/
structure IStatusSectionItem where
  GtSecFieldName : String
  GtSecIcon : String
deriving Repr, DecidableEq

/-- The expanded `GtPortfolioColumn` lookup of a column configuration
row. -/
structure PortfolioColumn where
  Title : String
  GtInternalName : String
deriving Repr, DecidableEq

/-- A row of the portfolio column configuration list. -/
structure IPortfolioColumnConfigurationItem where
  GtPortfolioColumnColor : String
  GtPortfolioColumnValue : String
  GtPortfolioColumn : PortfolioColumn
deriving Repr, DecidableEq

/-- A search result row with the two selected properties `SiteId` and
`Title`. -/
structure SearchResultRow where
  SiteId : String
  Title : String
deriving Repr, DecidableEq

/-- A taxonomy term as returned by `terms.get()`: the adapter reads
`Name` and `LocalCustomProperties` and discards the rest (`Id` stands in
for the discarded fields). -/
structure TaxonomyTerm where
  Id : String
  Name : String
  LocalCustomProperties : JsObj String
deriving Repr, DecidableEq

/-- The result of `pick(term, 'Name', 'LocalCustomProperties')`: only the
two named fields survive. -/
structure PickedTerm where
  Name : String
  LocalCustomProperties : JsObj String
deriving Repr, DecidableEq

/-- `pick(p, 'Name', 'LocalCustomProperties')`. -/
def pickTerm (t : TaxonomyTerm) : PickedTerm :=
  { Name := t.Name, LocalCustomProperties := t.LocalCustomProperties }

/-- One entry of the object built by `getColumnConfigurations`: the entry
starts as `{}`, so both fields start `undefined`; `name` is modelled as
`Option String` (`none` for `undefined`) and `colors` as an object. -/
structure ColumnConfiguration where
  name : Option String
  colors : JsObj String
deriving Repr, DecidableEq

/-- A project status view model. Modelled from the spec: the
`ProjectStatusModel` class is in the missing `models` module; its
constructor takes the status item together with the column configurations
and status sections, and it exposes the item's `GtSiteId` as `siteId`. -/
structure ProjectStatusModel where
  siteId : String
  item : IProjectStatusItem
  columnConfigurations : JsObj ColumnConfiguration
  statusSections : List IStatusSectionItem
deriving Repr, DecidableEq

/-- The `ProjectStatusModel` constructor
`new ProjectStatusModel(item, _columnConfigurations, _statusSections)`.
Modelled from the spec: the class body is in the missing `models` module;
the adapter only reads `siteId` from the model, which carries the status
item's `GtSiteId`. -/
def ProjectStatusModel.ofItem (item : IProjectStatusItem)
    (columnConfigurations : JsObj ColumnConfiguration)
    (statusSections : List IStatusSectionItem) : ProjectStatusModel :=
  { siteId := item.GtSiteId, item := item,
    columnConfigurations := columnConfigurations,
    statusSections := statusSections }

/-- A project view model. Modelled from the spec: the `ProjectModel` class
is in the missing `models` module; the adapter constructs it from a
project item and the item's status models, reads `siteId` (the item's
`GtSiteId`) and sets `title` via `setTitle`. -/
structure ProjectModel where
  siteId : String
  title : Option String
  status : List ProjectStatusModel
deriving Repr, DecidableEq

/-- The `ProjectModel` constructor `new ProjectModel(item, status)`.
Modelled from the spec (missing `models` module). -/
def ProjectModel.ofItem (item : IProjectItem)
    (status : List ProjectStatusModel) : ProjectModel :=
  { siteId := item.GtSiteId, title := none, status := status }

/-- `project.setTitle(title)`: returns the model with its title set.
Modelled from the spec (missing `models` module). -/
def ProjectModel.setTitle (p : ProjectModel) (t : String) : ProjectModel :=
  { p with title := some t }

/-! ## The data adapter -/

/-- The SharePoint search query issued by `searchSitesInHub`. -/
structure SearchQuery where
  Querytext : String
  TrimDuplicates : Bool
  RowLimit : Nat
  SelectProperties : List String
deriving Repr, DecidableEq

/-- The query `searchSitesInHub` sends to `sp.search`. -/
def searchSitesInHubQuery (siteId : String) : SearchQuery :=
  { Querytext := "DepartmentId:\x7b" ++ siteId ++ "\x7d contentclass:STS_Site"
    TrimDuplicates := false
    RowLimit := 500
    SelectProperties := ["SiteId", "Title"] }

/-- The reduce in `searchSitesInHub`: folds the primary search results
into an object keyed by `SiteId` with the result's `Title` as value
(`obj = {...obj, [SiteId]: Title}`). -/
def searchSitesInHub (primarySearchResults : List SearchResultRow) :
    JsObj String :=
  primarySearchResults.foldl
    (fun obj siteResult => objSet obj siteResult.SiteId siteResult.Title)
    objEmpty

/-- The updates applied to the (possibly fresh) entry `obj[key]` by one
item of the reduce in `getColumnConfigurations`:
`obj[key].name = obj[key].name || Title` and
`obj[key].colors[value] = color` (the `|| {}` defaults are part of the
fresh entry). -/
def applyColumnConfigItem (entry : ColumnConfiguration)
    (item : IPortfolioColumnConfigurationItem) : ColumnConfiguration :=
  { name := some (jsOrStr entry.name item.GtPortfolioColumn.Title)
    colors := objSet entry.colors item.GtPortfolioColumnValue
      item.GtPortfolioColumnColor }

/-- One step of the reduce in `getColumnConfigurations`:
`obj[key] = obj[key] || {}`, `obj[key].name = obj[key].name || Title`,
`obj[key].colors = obj[key].colors || {}`,
`obj[key].colors[value] = color`. -/
def columnConfigStep (obj : JsObj ColumnConfiguration)
    (item : IPortfolioColumnConfigurationItem) : JsObj ColumnConfiguration :=
  let key := item.GtPortfolioColumn.GtInternalName
  objSet obj key
    (applyColumnConfigItem
      ((objGet obj key).getD { name := none, colors := objEmpty }) item)

/-- The OData `startswith(s, pre)` function: `pre` is a character prefix
of `s`. -/
def odataStartsWith (s pre : String) : Bool :=
  pre.data.isPrefixOf s.data

/-- `getColumnConfigurations`, taking the raw list rows: the OData filter
`startswith(GtPortfolioColumn/GtInternalName,'GtStatus')` restricts the
rows, and the reduce builds the nested configuration object. -/
def getColumnConfigurations
    (items : List IPortfolioColumnConfigurationItem) :
    JsObj ColumnConfiguration :=
  (items.filter
      (fun item =>
        odataStartsWith item.GtPortfolioColumn.GtInternalName "GtStatus")).foldl
    columnConfigStep objEmpty

/-- The results of the platform calls `fetchData` consumes (the calls
themselves are asynchronous HTTP requests; their resolved values are
passed in). -/
structure FetchInputs where
  sitesResults : List SearchResultRow
  projectItems : List IProjectItem
  statusItems : List IProjectStatusItem
  columnConfigItems : List IPortfolioColumnConfigurationItem
  statusSectionItems : List IStatusSectionItem
  phaseTerms : List TaxonomyTerm
deriving Repr, DecidableEq

/-- The fetch result `{ projects, phases }`. -/
structure IDataAdapterFetchResult where
  projects : List ProjectModel
  phases : List PickedTerm
deriving Repr, DecidableEq

/-- The `_status.map(item => new ProjectStatusModel(item, ...))` step of
`fetchData`. -/
def statusModels (inputs : FetchInputs) : List ProjectStatusModel :=
  inputs.statusItems.map (fun item =>
    ProjectStatusModel.ofItem item
      (getColumnConfigurations inputs.columnConfigItems)
      inputs.statusSectionItems)

/-- The body of the arrow function mapped over `_projects` in `fetchData`:
builds the `ProjectModel` with the status models filtered to the item's
`GtSiteId`, returns `null` when the sites map has no truthy entry for the
project's `siteId`, and otherwise sets the mapped title. -/
def buildProject (sites : JsObj String) (status : List ProjectStatusModel)
    (item : IProjectItem) : Option ProjectModel :=
  let project := ProjectModel.ofItem item
    (status.filter (fun s => s.siteId = item.GtSiteId))
  if jsTruthyStr (objGet sites project.siteId) then
    some (project.setTitle ((objGet sites project.siteId).getD ""))
  else
    none

/-- The pure joining core of `DataAdapter.fetchData`, applied to the
resolved platform results. -/
def fetchData (inputs : FetchInputs) : IDataAdapterFetchResult :=
  let _sites := searchSitesInHub inputs.sitesResults
  let status := statusModels inputs
  let projects :=
    (inputs.projectItems.map (buildProject _sites status)).filterMap id
  let phases :=
    (inputs.phaseTerms.filter (fun p =>
        objGet p.LocalCustomProperties "ShowOnFrontpage" ≠ some "false")).map
      pickTerm
  { projects := projects, phases := phases }

/-! ## Caching options -/

/-- `ICachingOptions` with the fields the adapter uses; the expiration is
opaque to the adapter and is modelled as a `Nat`. -/
structure ICachingOptions where
  expiration : Nat
  key : String
deriving Repr, DecidableEq

/-- The mutable fields of `DataAdapter` relevant to caching:
`cacheOptions` (null until `usingCaching`), `current` (undefined until
`fetchData`), and the `cacheKeys` array. -/
structure DataAdapterState where
  cacheOptions : Option ICachingOptions
  current : Option Portfolio
  cacheKeys : List String
deriving Repr, DecidableEq

/-- `usingCaching({expiration, alias})`: stores the expiration and the
key template `alias + "_\x7b0\x7d_\x7b1\x7d"`. -/
def usingCaching (st : DataAdapterState) (expiration : Nat)
    (aliasName : String) : DataAdapterState :=
  { st with
    cacheOptions := some ({ expiration := expiration,
                            key := aliasName ++ "_\x7b0\x7d_\x7b1\x7d" }) }

/-- One pass of the `string-format` template substitution over the
template's characters, mirroring the library's single replace regex for
the constructs the adapter's key templates can contain: the
literal-brace escape (a doubled `\x7b\x7b` or `\x7d\x7d` collapses to
one brace; this alternative comes first, as in the regex alternation)
and the numeric placeholders (`\x7b0\x7d` is replaced by the first
argument, `\x7b1\x7d` by the second).  Replaced text is not rescanned;
every other character passes through. -/
def fmtAux (id key : List Char) : List Char → List Char
  | [] => []
  | [c] => [c]
  | [c, d] =>
      if (c = '\x7b' ∧ d = '\x7b') ∨ (c = '\x7d' ∧ d = '\x7d') then [c]
      else [c, d]
  | c :: d :: e :: rest =>
      if c = '\x7b' ∧ d = '\x7b' then
        c :: fmtAux id key (e :: rest)
      else if c = '\x7d' ∧ d = '\x7d' then
        c :: fmtAux id key (e :: rest)
      else if c = '\x7b' ∧ d = '0' ∧ e = '\x7d' then
        id ++ fmtAux id key rest
      else if c = '\x7b' ∧ d = '1' ∧ e = '\x7d' then
        key ++ fmtAux id key rest
      else
        c :: fmtAux id key (d :: e :: rest)

/-- `format(template, arg0, arg1)` from the `string-format` package, for
the escapes and numeric placeholders the adapter's key templates can
contain. -/
def formatTemplate (template arg0 arg1 : String) : String :=
  String.mk (fmtAux arg0.data arg1.data template.data)

/-- Whether two adjacent occurrences of the character `c` appear in the
list — the shape the literal-brace escape consumes. -/
def hasPair (c : Char) : List Char → Bool
  | [] => false
  | [_] => false
  | a :: b :: rest => (a = c && b = c) || hasPair c (b :: rest)

/-- `getCacheOptions(key)`: formats the stored key template with the
current portfolio's id and the given key, pushes the formatted key onto
`cacheKeys`, and returns the options with the formatted key.  `none`
models the `TypeError` thrown when `usingCaching` or `fetchData` has not
run (so `cacheOptions` or `current` is still null). -/
def getCacheOptions (st : DataAdapterState) (key : String) :
    Option (ICachingOptions × DataAdapterState) :=
  match st.cacheOptions, st.current with
  | some co, some cur =>
      let cacheKey := formatTemplate co.key cur.id key
      some ({ co with key := cacheKey },
            { st with cacheKeys := st.cacheKeys ++ [cacheKey] })
  | _, _ => none

/-! ## Error propagation (`fetchData` with failing platform calls) -/

/-- The outcome of each platform request `fetchData` (directly or through
its helpers) awaits, in the order the code awaits them: the site `Id`
lookup, the phase field `TermSetId` lookup, then the six concurrent
requests of the `Promise.all`. -/
structure FetchOutcomes (ε : Type) where
  siteIdResult : Except ε String
  termSetIdResult : Except ε String
  sitesResult : Except ε (List SearchResultRow)
  projectsResult : Except ε (List IProjectItem)
  statusResult : Except ε (List IProjectStatusItem)
  columnConfigResult : Except ε (List IPortfolioColumnConfigurationItem)
  statusSectionsResult : Except ε (List IStatusSectionItem)
  phaseTermsResult : Except ε (List TaxonomyTerm)

/-- `fetchData` over fallible platform calls: every awaited rejection
propagates (there is no catch and no retry in the adapter), and only when
all calls resolve is the pure join computed. -/
def fetchDataE {ε : Type} (r : FetchOutcomes ε) :
    Except ε IDataAdapterFetchResult :=
  match r.siteIdResult with
  | .error e => .error e
  | .ok _ =>
    match r.termSetIdResult with
    | .error e => .error e
    | .ok _ =>
      match r.sitesResult with
      | .error e => .error e
      | .ok sites =>
        match r.projectsResult with
        | .error e => .error e
        | .ok projectItems =>
          match r.statusResult with
          | .error e => .error e
          | .ok statusItems =>
            match r.columnConfigResult with
            | .error e => .error e
            | .ok columnConfigItems =>
              match r.statusSectionsResult with
              | .error e => .error e
              | .ok statusSectionItems =>
                match r.phaseTermsResult with
                | .error e => .error e
                | .ok phaseTerms =>
                  .ok (fetchData
                    { sitesResults := sites
                      projectItems := projectItems
                      statusItems := statusItems
                      columnConfigItems := columnConfigItems
                      statusSectionItems := statusSectionItems
                      phaseTerms := phaseTerms })

/-- The error of a failed request, if any. -/
def errOf {ε α : Type} : Except ε α → Option ε
  | .error e => some e
  | .ok _ => none

/-- The first rejection among the awaited requests, in await order. -/
def firstError {ε : Type} (r : FetchOutcomes ε) : Option ε :=
  (errOf r.siteIdResult).orElse fun _ =>
  (errOf r.termSetIdResult).orElse fun _ =>
  (errOf r.sitesResult).orElse fun _ =>
  (errOf r.projectsResult).orElse fun _ =>
  (errOf r.statusResult).orElse fun _ =>
  (errOf r.columnConfigResult).orElse fun _ =>
  (errOf r.statusSectionsResult).orElse fun _ =>
  errOf r.phaseTermsResult

/-! ## The StatusColumn component -/

/-- The web part properties the component reads from the context.
Modelled from the spec: the properties interface is outside the provided
sources; `showTooltip` is the truthiness of the configured value, and the
two icon numbers may be `undefined`. -/
structure IProjectOverviewAppProperties where
  showTooltip : Bool
  columnIconGap : Option Nat
  columnIconSize : Option Nat
deriving Repr, DecidableEq

/-- The value of `ProjectOverviewContext`. -/
structure ProjectOverviewContextValue where
  properties : IProjectOverviewAppProperties
deriving Repr, DecidableEq

/-- One entry of `status.sections` as destructured by the component:
`{ fieldName, iconName, color }`. Modelled from the spec: the sections
are computed on the status model in the missing `models` module. -/
structure StatusSection where
  fieldName : String
  iconName : String
  color : String
deriving Repr, DecidableEq

/-- The `status` prop of `StatusColumn`, restricted to what the component
reads: its `sections` (the whole status is also handed to the tooltip). -/
structure StatusColumnStatus where
  sections : List StatusSection
deriving Repr, DecidableEq

/-- A rendered `Icon` element. -/
structure IconView where
  key : String
  iconName : String
  color : String
  paddingRight : Nat
  fontSize : Option Nat
deriving Repr, DecidableEq

/-- `TooltipDelay.long`. -/
def TooltipDelayLong : Nat := 2

/-- The `TooltipHost` element rendered by `StatusColumn`, with the
`FadeIn`-wrapped icons as children and the status handed to
`StatusColumnTooltip` in `onRenderContent`. -/
structure StatusColumnView where
  tooltipHidden : Bool
  tooltipContentStatus : StatusColumnStatus
  delay : Nat
  closeDelay : Nat
  calloutGapSpace : Nat
  fadeInDelay : Nat
  fadeInTransitionDuration : Nat
  icons : List IconView
deriving Repr, DecidableEq

/-- The `StatusColumn` functional component as a pure view function. -/
def StatusColumn (ctx : ProjectOverviewContextValue)
    (status : StatusColumnStatus) : StatusColumnView :=
  let properties := ctx.properties
  { tooltipHidden := !properties.showTooltip
    tooltipContentStatus := status
    delay := TooltipDelayLong
    closeDelay := TooltipDelayLong
    calloutGapSpace := 10
    fadeInDelay := 100
    fadeInTransitionDuration := 400
    icons := status.sections.map (fun sec =>
      { key := sec.fieldName
        iconName := sec.iconName
        color := sec.color
        paddingRight := jsOrNat properties.columnIconGap 8
        fontSize := properties.columnIconSize }) }

/-! ## Lemmas -/

theorem objGet_foldl_objSet {α β : Type} (key : β → String) (val : β → α)
    (l : List β) (acc : JsObj α) (k : String) :
    objGet (l.foldl (fun obj b => objSet obj (key b) (val b)) acc) k =
      match l.reverse.find? (fun b => key b = k) with
      | some b => some (val b)
      | none => objGet acc k := by
  induction l generalizing acc with
  | nil => simp
  | cons b l ih =>
      simp only [List.foldl_cons, List.reverse_cons]
      rw [ih, List.find?_append]
      cases h : l.reverse.find? (fun b => decide (key b = k)) with
      | some b' => simp [h, Option.orElse]
      | none =>
          simp only [h, Option.orElse, Option.none_orElse]
          rw [objGet_objSet]
          by_cases hk : key b = k <;> simp [hk, List.find?]

/-! ## Theorems about the claims -/

/-- C10: `searchSitesInHub` requests at most 500 rows (`RowLimit: 500`),
and the reduce keys the results by `SiteId`, the `Title` of a later
result overwriting an earlier one with the same `SiteId` (the value at a
key is the `Title` of the last matching result). -/
theorem searchSitesInHub_rowLimit_and_last_write_wins :
    (∀ siteId : String, (searchSitesInHubQuery siteId).RowLimit = 500) ∧
    (∀ (rs : List SearchResultRow) (k : String),
        objGet (searchSitesInHub rs) k =
          (rs.reverse.find? (fun r => r.SiteId = k)).map
            SearchResultRow.Title) ∧
    (∀ s t₁ t₂ : String,
        objGet (searchSitesInHub [⟨s, t₁⟩, ⟨s, t₂⟩]) s = some t₂) := by
  refine ⟨fun _ => rfl, fun rs k => ?_, fun s t₁ t₂ => ?_⟩
  · rw [searchSitesInHub, objGet_foldl_objSet]
    cases h : rs.reverse.find? (fun r => decide (r.SiteId = k)) <;>
      simp [h, objEmpty, objGet]
  · simp [searchSitesInHub, objSet, objGet, objEmpty]

/-- C6: for every status value, `StatusColumn` renders one `Icon` per
entry of `status.sections`, in order, with that section's `iconName` as
the icon and its `color` as the color (and the section's `fieldName` as
the key), all inside a tooltip host whose content renders the status
tooltip for this status. -/
theorem StatusColumn_renders_icons_per_section :
    ∀ (ctx : ProjectOverviewContextValue) (status : StatusColumnStatus),
      ((StatusColumn ctx status).icons.map IconView.iconName =
          status.sections.map StatusSection.iconName) ∧
      ((StatusColumn ctx status).icons.map IconView.color =
          status.sections.map StatusSection.color) ∧
      ((StatusColumn ctx status).icons.map IconView.key =
          status.sections.map StatusSection.fieldName) ∧
      ((StatusColumn ctx status).icons.length = status.sections.length) ∧
      ((StatusColumn ctx status).tooltipContentStatus = status) := by
  intro ctx status
  refine ⟨?_, ?_, ?_, ?_, rfl⟩ <;>
    simp [StatusColumn, List.map_map, Function.comp]

/-- C8: the tooltip host is hidden exactly when the context property
`showTooltip` is falsy, while the rendered icons do not depend on
`showTooltip` at all. -/
theorem StatusColumn_tooltip_hidden_iff_not_showTooltip :
    ∀ (ctx : ProjectOverviewContextValue) (status : StatusColumnStatus)
      (b : Bool),
      ((StatusColumn ctx status).tooltipHidden =
          !ctx.properties.showTooltip) ∧
      ((StatusColumn ctx status).tooltipHidden = true ↔
          ctx.properties.showTooltip = false) ∧
      ((StatusColumn
          { properties := { ctx.properties with showTooltip := b } }
          status).icons =
        (StatusColumn ctx status).icons) := by
  intro ctx status b
  refine ⟨rfl, ?_, rfl⟩
  cases h : ctx.properties.showTooltip <;> simp [StatusColumn, h]

/-- C9: every icon's right padding is `columnIconGap || 8`: the
configured `columnIconGap` when that value is truthy and `8` otherwise;
in particular a configured gap of `0` is falsy and yields the default
`8`. -/
theorem StatusColumn_icon_padding :
    ∀ (ctx : ProjectOverviewContextValue) (status : StatusColumnStatus),
      ((StatusColumn ctx status).icons.map IconView.paddingRight =
          status.sections.map (fun _ =>
            if jsTruthyNat ctx.properties.columnIconGap then
              ctx.properties.columnIconGap.getD 8
            else 8)) ∧
      ((StatusColumn
          { properties := { ctx.properties with columnIconGap := some 0 } }
          status).icons.map IconView.paddingRight =
        status.sections.map (fun _ => 8)) := by
  intro ctx status
  constructor <;>
    simp [StatusColumn, List.map_map, Function.comp_def, jsOrNat,
      jsTruthyNat]

/-- C1: `fetchData` maps `buildProject` over the fetched project items
(dropping the `null`s), and the `ProjectModel` built for an item is
constructed from exactly those status models whose `siteId` equals the
item's `GtSiteId`, in the order the status items were fetched (`filter`
preserves order). -/
theorem fetchData_project_status_join :
    ∀ inputs : FetchInputs,
      ((fetchData inputs).projects =
        (inputs.projectItems.map
            (buildProject (searchSitesInHub inputs.sitesResults)
              (statusModels inputs))).filterMap id) ∧
      (∀ (sites : JsObj String) (status : List ProjectStatusModel)
          (item : IProjectItem) (p : ProjectModel),
          buildProject sites status item = some p →
          p.status = status.filter (fun s => s.siteId = item.GtSiteId)) := by
  intro inputs
  refine ⟨rfl, ?_⟩
  intro sites status item p h
  simp only [buildProject] at h
  split at h
  · injection h with h'
    subst h'
    rfl
  · exact absurd h (by simp)

/-- Witness for C1 at a concrete input: a project item with `GtSiteId`
`"s1"` and two status models, of which only the first has `siteId`
`"s1"`. -/
theorem fetchData_project_status_join_witness :
    (ProjectModel.mk "s1" (some "Site One")
        [ProjectStatusModel.ofItem ⟨1, "s1"⟩ [] []]).status =
      [ProjectStatusModel.ofItem ⟨1, "s1"⟩ [] [],
        ProjectStatusModel.ofItem ⟨2, "s2"⟩ [] []].filter
        (fun s => s.siteId = "s1") :=
  (fetchData_project_status_join ⟨[], [], [], [], [], []⟩).2
    [("s1", "Site One")]
    [ProjectStatusModel.ofItem ⟨1, "s1"⟩ [] [],
      ProjectStatusModel.ofItem ⟨2, "s2"⟩ [] []]
    ⟨"s1", "P1"⟩ _ (by decide)

/-- C2: every project returned by `fetchData` has a (truthy) entry in the
map built by `searchSitesInHub` at its `siteId` and carries the mapped
`Title` as its title; a project item whose `GtSiteId` is absent from
that map yields `null` and is dropped. -/
theorem fetchData_projects_joined_with_hub_sites :
    ∀ inputs : FetchInputs,
      (∀ p ∈ (fetchData inputs).projects,
          ∃ t, objGet (searchSitesInHub inputs.sitesResults) p.siteId =
              some t ∧
            p.title = some t) ∧
      (∀ item : IProjectItem,
          objGet (searchSitesInHub inputs.sitesResults) item.GtSiteId =
            none →
          buildProject (searchSitesInHub inputs.sitesResults)
            (statusModels inputs) item = none) := by
  intro inputs
  constructor
  · intro p hp
    simp only [fetchData, List.filterMap_map, List.mem_filterMap] at hp
    obtain ⟨item, -, hbuild⟩ := hp
    simp only [Function.comp_apply, id_eq] at hbuild
    simp only [buildProject] at hbuild
    split at hbuild
    · next hcond =>
        injection hbuild with h'
        subst h'
        cases hget : objGet (searchSitesInHub inputs.sitesResults)
            (ProjectModel.ofItem item
              ((statusModels inputs).filter
                (fun s => s.siteId = item.GtSiteId))).siteId with
        | none => rw [hget] at hcond; simp [jsTruthyStr] at hcond
        | some t =>
            refine ⟨t, ?_, ?_⟩
            · simpa [ProjectModel.setTitle] using hget
            · simp [ProjectModel.setTitle, hget]
    · exact absurd hbuild (by simp)
  · intro item h
    simp [buildProject, ProjectModel.ofItem, h, jsTruthyStr]

/-- Witness for C2 at a concrete input: one project item whose site is in
the hub search results and one whose site is not. -/
theorem fetchData_projects_joined_with_hub_sites_witness :
    (∀ p ∈ (fetchData
          ⟨[⟨"s1", "Site One"⟩], [⟨"s1", "P1"⟩, ⟨"s2", "P2"⟩], [], [],
            [], []⟩).projects,
        ∃ t, objGet (searchSitesInHub [⟨"s1", "Site One"⟩]) p.siteId =
            some t ∧
          p.title = some t) ∧
    buildProject (searchSitesInHub [⟨"s1", "Site One"⟩])
        (statusModels
          ⟨[⟨"s1", "Site One"⟩], [⟨"s1", "P1"⟩, ⟨"s2", "P2"⟩], [], [],
            [], []⟩)
        ⟨"s2", "P2"⟩ =
      none :=
  ⟨(fetchData_projects_joined_with_hub_sites
      ⟨[⟨"s1", "Site One"⟩], [⟨"s1", "P1"⟩, ⟨"s2", "P2"⟩], [], [], [],
        []⟩).1,
    (fetchData_projects_joined_with_hub_sites
      ⟨[⟨"s1", "Site One"⟩], [⟨"s1", "P1"⟩, ⟨"s2", "P2"⟩], [], [], [],
        []⟩).2 ⟨"s2", "P2"⟩ (by decide)⟩

/-- C3: the phases returned by `fetchData` are exactly the taxonomy
terms whose `LocalCustomProperties.ShowOnFrontpage` is not the string
`'false'` (an absent property passes the `!==` check), each reduced by
`pick` to its `Name` and `LocalCustomProperties`, in fetched order. -/
theorem fetchData_phases_filter_and_pick :
    ∀ inputs : FetchInputs,
      (fetchData inputs).phases =
        inputs.phaseTerms.filterMap (fun t =>
          if objGet t.LocalCustomProperties "ShowOnFrontpage" =
              some "false" then
            none
          else some (pickTerm t)) := by
  intro inputs
  simp only [fetchData]
  induction inputs.phaseTerms with
  | nil => rfl
  | cons t ts ih =>
      simp only [ne_eq, decide_not] at ih ⊢
      by_cases h :
          objGet t.LocalCustomProperties "ShowOnFrontpage" = some "false" <;>
        simp [h, List.filter_cons, List.filterMap_cons, ih]

/-! ## Characterization of `getColumnConfigurations` -/

/-- The action of the reduce on the single entry at a fixed key: a fresh
`{}` entry is materialized on first sight and the item's updates are
applied. -/
def entryStep (e : Option ColumnConfiguration)
    (item : IPortfolioColumnConfigurationItem) : Option ColumnConfiguration :=
  some (applyColumnConfigItem
    (e.getD { name := none, colors := objEmpty }) item)

/-- Folding the per-entry action over a list of items. -/
def entryFold (e : Option ColumnConfiguration)
    (l : List IPortfolioColumnConfigurationItem) : Option ColumnConfiguration :=
  l.foldl entryStep e

/-- The configuration items that contribute to the entry at key `k`:
those passing the `startswith 'GtStatus'` request filter whose internal
name is `k`. -/
def matchingColumnItems (items : List IPortfolioColumnConfigurationItem)
    (k : String) : List IPortfolioColumnConfigurationItem :=
  (items.filter
      (fun it =>
        odataStartsWith it.GtPortfolioColumn.GtInternalName "GtStatus")).filter
    (fun it => it.GtPortfolioColumn.GtInternalName = k)

/-- The `name || Title` chain over a list of titles. -/
def nameFold (n : Option String) (ts : List String) : Option String :=
  ts.foldl (fun n t => some (jsOrStr n t)) n

theorem objGet_foldl_columnConfigStep
    (l : List IPortfolioColumnConfigurationItem)
    (acc : JsObj ColumnConfiguration) (k : String) :
    objGet (l.foldl columnConfigStep acc) k =
      entryFold (objGet acc k)
        (l.filter (fun it => it.GtPortfolioColumn.GtInternalName = k)) := by
  induction l generalizing acc with
  | nil => rfl
  | cons it l ih =>
      simp only [List.foldl_cons, List.filter_cons]
      rw [ih]
      by_cases h : it.GtPortfolioColumn.GtInternalName = k
      · simp [h, columnConfigStep, objGet_objSet, entryFold, entryStep,
          List.foldl_cons]
      · simp [h, columnConfigStep, objGet_objSet]

theorem entryFold_isSome (l : List IPortfolioColumnConfigurationItem)
    (ent : ColumnConfiguration) : (entryFold (some ent) l).isSome := by
  induction l generalizing ent with
  | nil => rfl
  | cons it l ih => simpa [entryFold, entryStep] using ih _

theorem entryFold_name (l : List IPortfolioColumnConfigurationItem)
    (ent : ColumnConfiguration) :
    (entryFold (some ent) l).map ColumnConfiguration.name =
      some (nameFold ent.name
        (l.map (fun it => it.GtPortfolioColumn.Title))) := by
  induction l generalizing ent with
  | nil => rfl
  | cons it l ih =>
      simpa [entryFold, entryStep, nameFold, applyColumnConfigItem,
        List.foldl_cons] using ih (applyColumnConfigItem ent it)

theorem entryFold_colors (l : List IPortfolioColumnConfigurationItem)
    (ent : ColumnConfiguration) :
    (entryFold (some ent) l).map ColumnConfiguration.colors =
      some (l.foldl
        (fun c it => objSet c it.GtPortfolioColumnValue
          it.GtPortfolioColumnColor)
        ent.colors) := by
  induction l generalizing ent with
  | nil => rfl
  | cons it l ih =>
      simpa [entryFold, entryStep, applyColumnConfigItem,
        List.foldl_cons] using ih (applyColumnConfigItem ent it)

theorem nameFold_of_truthy (ts : List String) (s : String) (h : s ≠ "") :
    nameFold (some s) ts = some s := by
  induction ts with
  | nil => rfl
  | cons t ts ih => simpa [nameFold, jsOrStr, jsTruthyStr, h] using ih

theorem nameFold_closed (ts : List String) :
    nameFold none ts =
      match ts.find? (fun t => t ≠ "") with
      | some t => some t
      | none => if ts.isEmpty then none else some "" := by
  induction ts with
  | nil => rfl
  | cons t ts ih =>
      by_cases h : t = ""
      · subst h
        cases ts with
        | nil => rfl
        | cons u us =>
            have step : nameFold none ("" :: u :: us) =
                nameFold none (u :: us) := by
              simp [nameFold, jsOrStr, jsTruthyStr]
            rw [step, ih]
            have hfind :
                List.find? (fun t => decide (t ≠ "")) ("" :: u :: us) =
                  List.find? (fun t => decide (t ≠ "")) (u :: us) :=
              List.find?_cons_of_neg _ (by simp)
            rw [hfind]
            cases hf : List.find? (fun t => decide (t ≠ "")) (u :: us) <;>
              simp
      · have lhs : nameFold none (t :: ts) = nameFold (some t) ts := by
          simp [nameFold, jsOrStr, jsTruthyStr]
        rw [lhs, nameFold_of_truthy ts t h]
        have hfind : List.find? (fun t => decide (t ≠ "")) (t :: ts) =
            some t :=
          List.find?_cons_of_pos _ (by simpa using h)
        rw [hfind]

/-- C4 (amended): `getColumnConfigurations` covers exactly the items
whose internal name starts with `'GtStatus'`, keyed by internal name; an
entry's `name` is the `Title` of the first item seen for that internal
name whose `Title` is truthy (the empty string when every matching
`Title` is empty); an entry's `colors` maps each item's
`GtPortfolioColumnValue` to its `GtPortfolioColumnColor`, a later item
overriding an earlier one for the same value. -/
theorem getColumnConfigurations_characterization :
    ∀ (items : List IPortfolioColumnConfigurationItem) (k : String),
      (objGet (getColumnConfigurations items) k = none ↔
        matchingColumnItems items k = []) ∧
      (∀ e : ColumnConfiguration,
          objGet (getColumnConfigurations items) k = some e →
          e.name = some
            ((((matchingColumnItems items k).map
                  (fun it => it.GtPortfolioColumn.Title)).find?
                (fun t => t ≠ "")).getD "")) ∧
      (∀ (e : ColumnConfiguration) (v : String),
          objGet (getColumnConfigurations items) k = some e →
          objGet e.colors v =
            ((matchingColumnItems items k).reverse.find?
                (fun it => it.GtPortfolioColumnValue = v)).map
              IPortfolioColumnConfigurationItem.GtPortfolioColumnColor) := by
  intro items k
  have hkey : objGet (getColumnConfigurations items) k =
      entryFold none (matchingColumnItems items k) := by
    rw [getColumnConfigurations, objGet_foldl_columnConfigStep]
    rfl
  refine ⟨?_, ?_, ?_⟩
  · rw [hkey]
    cases hm : matchingColumnItems items k with
    | nil => simp [entryFold]
    | cons it l =>
        have hs :=
          entryFold_isSome l
            (applyColumnConfigItem { name := none, colors := objEmpty } it)
        constructor
        · intro h
          simp only [entryFold, List.foldl_cons, entryStep,
            Option.getD_none] at h
          rw [entryFold] at hs
          rw [h] at hs
          cases hs
        · intro h
          cases h
  · intro e he
    rw [hkey] at he
    cases hm : matchingColumnItems items k with
    | nil => rw [hm] at he; cases he
    | cons it l =>
        rw [hm] at he
        have hname :=
          entryFold_name l
            (applyColumnConfigItem { name := none, colors := objEmpty } it)
        have he' : entryFold
            (some (applyColumnConfigItem
              { name := none, colors := objEmpty } it)) l = some e := he
        rw [he'] at hname
        have hn : e.name =
            nameFold
              (applyColumnConfigItem
                { name := none, colors := objEmpty } it).name
              (l.map (fun it => it.GtPortfolioColumn.Title)) := by
          simpa using hname
        have hstep : nameFold
            (applyColumnConfigItem
              { name := none, colors := objEmpty } it).name
            (l.map (fun it => it.GtPortfolioColumn.Title)) =
            nameFold none
              ((it :: l).map (fun it => it.GtPortfolioColumn.Title)) := rfl

        rw [hn, hstep, nameFold_closed]
        cases hf : ((it :: l).map
            (fun it => it.GtPortfolioColumn.Title)).find?
            (fun t => decide (t ≠ "")) <;> simp [hf]
  · intro e v he
    rw [hkey] at he
    cases hm : matchingColumnItems items k with
    | nil => rw [hm] at he; cases he
    | cons it l =>
        rw [hm] at he
        have hcolors :=
          entryFold_colors l
            (applyColumnConfigItem { name := none, colors := objEmpty } it)
        have he' : entryFold
            (some (applyColumnConfigItem
              { name := none, colors := objEmpty } it)) l = some e := he
        rw [he'] at hcolors
        have hc : e.colors =
            (it :: l).foldl
              (fun c b =>
                objSet c b.GtPortfolioColumnValue b.GtPortfolioColumnColor)
              objEmpty := by
          simpa using hcolors
        rw [hc, objGet_foldl_objSet
          (fun b : IPortfolioColumnConfigurationItem =>
            b.GtPortfolioColumnValue)
          (fun b : IPortfolioColumnConfigurationItem =>
            b.GtPortfolioColumnColor)]
        cases hf : (it :: l).reverse.find?
            (fun b => decide (b.GtPortfolioColumnValue = v)) <;>
          simp [hf, objGet, objEmpty]

/-- Witness for C4 at a concrete input: three matching rows under the
internal name `GtStatusRisk`, the first with an empty `Title`, two of
them writing the value `v1`. -/
theorem getColumnConfigurations_characterization_witness :
    (objGet (getColumnConfigurations
          [⟨"c1", "v1", ⟨"", "GtStatusRisk"⟩⟩,
            ⟨"c2", "v2", ⟨"T", "GtStatusRisk"⟩⟩,
            ⟨"c3", "v1", ⟨"U", "GtStatusRisk"⟩⟩,
            ⟨"x", "y", ⟨"Z", "Other"⟩⟩]) "GtStatusRisk" = none ↔
        matchingColumnItems
          [⟨"c1", "v1", ⟨"", "GtStatusRisk"⟩⟩,
            ⟨"c2", "v2", ⟨"T", "GtStatusRisk"⟩⟩,
            ⟨"c3", "v1", ⟨"U", "GtStatusRisk"⟩⟩,
            ⟨"x", "y", ⟨"Z", "Other"⟩⟩] "GtStatusRisk" = []) ∧
      ({ name := some "T",
         colors := [("v1", "c3"), ("v2", "c2")] } :
          ColumnConfiguration).name = some
        ((((matchingColumnItems
              [⟨"c1", "v1", ⟨"", "GtStatusRisk"⟩⟩,
                ⟨"c2", "v2", ⟨"T", "GtStatusRisk"⟩⟩,
                ⟨"c3", "v1", ⟨"U", "GtStatusRisk"⟩⟩,
                ⟨"x", "y", ⟨"Z", "Other"⟩⟩] "GtStatusRisk").map
              (fun it => it.GtPortfolioColumn.Title)).find?
            (fun t => t ≠ "")).getD "") ∧
      objGet
          ({ name := some "T",
             colors := [("v1", "c3"), ("v2", "c2")] } :
            ColumnConfiguration).colors "v1" =
        ((matchingColumnItems
              [⟨"c1", "v1", ⟨"", "GtStatusRisk"⟩⟩,
                ⟨"c2", "v2", ⟨"T", "GtStatusRisk"⟩⟩,
                ⟨"c3", "v1", ⟨"U", "GtStatusRisk"⟩⟩,
                ⟨"x", "y", ⟨"Z", "Other"⟩⟩] "GtStatusRisk").reverse.find?
            (fun it => it.GtPortfolioColumnValue = "v1")).map
          IPortfolioColumnConfigurationItem.GtPortfolioColumnColor :=
  ⟨(getColumnConfigurations_characterization
      [⟨"c1", "v1", ⟨"", "GtStatusRisk"⟩⟩,
        ⟨"c2", "v2", ⟨"T", "GtStatusRisk"⟩⟩,
        ⟨"c3", "v1", ⟨"U", "GtStatusRisk"⟩⟩,
        ⟨"x", "y", ⟨"Z", "Other"⟩⟩] "GtStatusRisk").1,
    (getColumnConfigurations_characterization
      [⟨"c1", "v1", ⟨"", "GtStatusRisk"⟩⟩,
        ⟨"c2", "v2", ⟨"T", "GtStatusRisk"⟩⟩,
        ⟨"c3", "v1", ⟨"U", "GtStatusRisk"⟩⟩,
        ⟨"x", "y", ⟨"Z", "Other"⟩⟩] "GtStatusRisk").2.1 _ (by decide),
    (getColumnConfigurations_characterization
      [⟨"c1", "v1", ⟨"", "GtStatusRisk"⟩⟩,
        ⟨"c2", "v2", ⟨"T", "GtStatusRisk"⟩⟩,
        ⟨"c3", "v1", ⟨"U", "GtStatusRisk"⟩⟩,
        ⟨"x", "y", ⟨"Z", "Other"⟩⟩] "GtStatusRisk").2.2 _ "v1" (by decide)⟩

/-- Counterexample to C4 as stated: with two items for the internal name
`GtStatusRisk`, the first having the empty `Title` and the second the
`Title` `"T"`, the entry's name is `"T"`, not the `Title` of the first
item seen. -/
theorem getColumnConfigurations_name_not_first_title :
    (objGet (getColumnConfigurations
          [⟨"c1", "v1", ⟨"", "GtStatusRisk"⟩⟩,
            ⟨"c2", "v2", ⟨"T", "GtStatusRisk"⟩⟩]) "GtStatusRisk").map
        ColumnConfiguration.name = some (some "T") ∧
      some (some "T") ≠
        some (some
          (⟨"c1", "v1", ⟨"", "GtStatusRisk"⟩⟩ :
              IPortfolioColumnConfigurationItem).GtPortfolioColumn.Title) := by
  constructor
  · rfl
  · decide

/-! ## Cache key formatting -/

theorem hasPair_tail (c a : Char) (l : List Char)
    (h : hasPair c (a :: l) = false) : hasPair c l = false := by
  cases l with
  | nil => rfl
  | cons b rest =>
      simp only [hasPair, Bool.or_eq_false_iff] at h
      exact h.2

theorem fmtAux_cons_no_escape (id key : List Char) (c : Char)
    (t : List Char) (hc : c ≠ '\x7b')
    (hp : ¬(c = '\x7d' ∧ t.head? = some '\x7d')) :
    fmtAux id key (c :: t) = c :: fmtAux id key t := by
  cases t with
  | nil => rfl
  | cons d t' =>
      have hd : ¬(c = '\x7d' ∧ d = '\x7d') := by
        rintro ⟨h1, h2⟩
        exact hp ⟨h1, by simp [h2]⟩
      cases t' with
      | nil => simp [fmtAux, hc, hd]
      | cons e rest => simp [fmtAux, hc, hd]

theorem fmtAux_append_of_plain (id key l s : List Char)
    (hbrace : '\x7b' ∉ l) (hpair : hasPair '\x7d' l = false)
    (hs : s.head? ≠ some '\x7d') :
    fmtAux id key (l ++ s) = l ++ fmtAux id key s := by
  induction l with
  | nil => rfl
  | cons c t ih =>
      have hc : c ≠ '\x7b' := fun e => hbrace (e ▸ List.mem_cons_self c t)
      have hp : ¬(c = '\x7d' ∧ (t ++ s).head? = some '\x7d') := by
        rintro ⟨h1, h2⟩
        cases t with
        | nil => exact hs (by simpa using h2)
        | cons d t' =>
            have hd : d = '\x7d' := by simpa using h2
            simp only [hasPair, h1, hd, Bool.or_eq_false_iff] at hpair
            simp at hpair
      rw [List.cons_append, fmtAux_cons_no_escape _ _ _ _ hc hp,
        ih (fun hm => hbrace (List.mem_cons_of_mem c hm))
          (hasPair_tail _ _ _ hpair)]
      rfl

theorem formatTemplate_of_plain_alias (aliasName id key : String)
    (hbrace : '\x7b' ∉ aliasName.data)
    (hpair : hasPair '\x7d' aliasName.data = false) :
    formatTemplate (aliasName ++ "_\x7b0\x7d_\x7b1\x7d") id key =
      aliasName ++ "_" ++ id ++ "_" ++ key := by
  apply String.ext
  obtain ⟨l⟩ := aliasName
  obtain ⟨li⟩ := id
  obtain ⟨lk⟩ := key
  have hdata : (String.mk l ++ "_\x7b0\x7d_\x7b1\x7d").data =
      l ++ ('_' :: '\x7b' :: '0' :: '\x7d' :: '_' :: '\x7b' :: '1' ::
        '\x7d' :: []) := rfl
  have hsuffix : fmtAux li lk
      ('_' :: '\x7b' :: '0' :: '\x7d' :: '_' :: '\x7b' :: '1' ::
        '\x7d' :: []) = '_' :: (li ++ '_' :: (lk ++ [])) := rfl
  show (formatTemplate _ _ _).data = _
  rw [formatTemplate]
  show fmtAux li lk (String.mk l ++ "_\x7b0\x7d_\x7b1\x7d").data = _
  rw [hdata, fmtAux_append_of_plain _ _ _ _ hbrace hpair (by decide),
    hsuffix]
  show l ++ '_' :: (li ++ '_' :: (lk ++ [])) =
    ((((String.mk l ++ "_") ++ String.mk li) ++ "_") ++ String.mk lk).data
  simp [String.data_append]

/-- C5 (amended): after `usingCaching({expiration, alias})` and once the
current portfolio config is set, `getCacheOptions(key)` returns options
whose key is `alias + '_' + config.id + '_' + key` and whose expiration
is the one passed to `usingCaching`, and appends that formatted key to
`cacheKeys` — provided the alias contains no `'\x7b'` and no doubled
`'\x7d'`, so that it injects neither a `string-format` placeholder nor
a literal-brace escape of its own. -/
theorem getCacheOptions_formats_key :
    ∀ (st : DataAdapterState) (expiration : Nat) (aliasName : String)
      (config : Portfolio) (key : String),
      '\x7b' ∉ aliasName.data →
      hasPair '\x7d' aliasName.data = false →
      getCacheOptions
          { usingCaching st expiration aliasName with
            current := some config } key =
        some
          ({ expiration := expiration,
             key := aliasName ++ "_" ++ config.id ++ "_" ++ key },
           { cacheOptions :=
               (usingCaching st expiration aliasName).cacheOptions,
             current := some config,
             cacheKeys := st.cacheKeys ++
               [aliasName ++ "_" ++ config.id ++ "_" ++ key] }) := by
  intro st expiration aliasName config key hbrace hpair
  simp only [getCacheOptions, usingCaching]
  rw [formatTemplate_of_plain_alias aliasName config.id key hbrace hpair]

/-- Witness for C5 at a concrete input: alias `pp365`, portfolio id
`42`, key `projects`. -/
theorem getCacheOptions_formats_key_witness :
    getCacheOptions
        { usingCaching ⟨none, none, []⟩ 5 "pp365" with
          current := some ⟨"42", "t", "u"⟩ } "projects" =
      some
        ({ expiration := 5, key := "pp365" ++ "_" ++ "42" ++ "_" ++ "projects" },
         { cacheOptions := (usingCaching ⟨none, none, []⟩ 5 "pp365").cacheOptions,
           current := some ⟨"42", "t", "u"⟩,
           cacheKeys := ([] : List String) ++
             ["pp365" ++ "_" ++ "42" ++ "_" ++ "projects"] }) :=
  getCacheOptions_formats_key ⟨none, none, []⟩ 5 "pp365" ⟨"42", "t", "u"⟩
    "projects" (by decide) (by decide)

/-- Counterexample to C5 as stated: with the alias `"\x7b1\x7d"`, the
alias's own placeholder is substituted too, so the formatted key is
`"k_i_k"` rather than `alias + '_' + 'i' + '_' + 'k'` =
`"\x7b1\x7d_i_k"`. -/
theorem getCacheOptions_alias_placeholder_injection :
    (getCacheOptions
        { usingCaching ⟨none, none, []⟩ 5 "\x7b1\x7d" with
          current := some ⟨"i", "t", "u"⟩ } "k").map
        (fun r => r.1.key) = some "k_i_k" ∧
      some "k_i_k" ≠ some ("\x7b1\x7d" ++ "_" ++ "i" ++ "_" ++ "k") := by
  constructor
  · rfl
  · decide

/-- C7: neither `fetchData` nor any helper it calls catches or retries a
failed platform request: the first rejected request's error becomes
`fetchData`'s rejection verbatim, and there is no partial result — a
result exists exactly when every request resolved. -/
theorem fetchDataE_propagates_first_error :
    ∀ (ε : Type) (r : FetchOutcomes ε),
      (∀ e : ε, firstError r = some e → fetchDataE r = Except.error e) ∧
      ((firstError r).isNone = true →
        ∃ result, fetchDataE r = Except.ok result) := by
  intro ε r
  obtain ⟨s1, s2, s3, s4, s5, s6, s7, s8⟩ := r
  cases s1 with
  | error e1 =>
      refine ⟨fun e he => ?_, fun h => ?_⟩
      · have he' : some e1 = some e := he
        injection he' with h'
        subst h'
        rfl
      · exact Bool.noConfusion (show false = true from h)
  | ok v1 =>
  cases s2 with
  | error e2 =>
      refine ⟨fun e he => ?_, fun h => ?_⟩
      · have he' : some e2 = some e := he
        injection he' with h'
        subst h'
        rfl
      · exact Bool.noConfusion (show false = true from h)
  | ok v2 =>
  cases s3 with
  | error e3 =>
      refine ⟨fun e he => ?_, fun h => ?_⟩
      · have he' : some e3 = some e := he
        injection he' with h'
        subst h'
        rfl
      · exact Bool.noConfusion (show false = true from h)
  | ok v3 =>
  cases s4 with
  | error e4 =>
      refine ⟨fun e he => ?_, fun h => ?_⟩
      · have he' : some e4 = some e := he
        injection he' with h'
        subst h'
        rfl
      · exact Bool.noConfusion (show false = true from h)
  | ok v4 =>
  cases s5 with
  | error e5 =>
      refine ⟨fun e he => ?_, fun h => ?_⟩
      · have he' : some e5 = some e := he
        injection he' with h'
        subst h'
        rfl
      · exact Bool.noConfusion (show false = true from h)
  | ok v5 =>
  cases s6 with
  | error e6 =>
      refine ⟨fun e he => ?_, fun h => ?_⟩
      · have he' : some e6 = some e := he
        injection he' with h'
        subst h'
        rfl
      · exact Bool.noConfusion (show false = true from h)
  | ok v6 =>
  cases s7 with
  | error e7 =>
      refine ⟨fun e he => ?_, fun h => ?_⟩
      · have he' : some e7 = some e := he
        injection he' with h'
        subst h'
        rfl
      · exact Bool.noConfusion (show false = true from h)
  | ok v7 =>
  cases s8 with
  | error e8 =>
      refine ⟨fun e he => ?_, fun h => ?_⟩
      · have he' : some e8 = some e := he
        injection he' with h'
        subst h'
        rfl
      · exact Bool.noConfusion (show false = true from h)
  | ok v8 =>
      refine ⟨fun e he => ?_, fun _ => ⟨_, rfl⟩⟩
      exact Option.noConfusion (show (none : Option ε) = some e from he)

/-- Witness for C7 at a concrete input: the projects request rejects
with `"http 500"` while every other request resolves, and `fetchData`
rejects with exactly that error. -/
theorem fetchDataE_propagates_first_error_witness :
    fetchDataE
        (ε := String)
        { siteIdResult := .ok "site-id"
          termSetIdResult := .ok "termset-id"
          sitesResult := .ok []
          projectsResult := .error "http 500"
          statusResult := .ok []
          columnConfigResult := .ok []
          statusSectionsResult := .ok []
          phaseTermsResult := .ok [] } =
      Except.error "http 500" :=
  (fetchDataE_propagates_first_error String
      { siteIdResult := .ok "site-id"
        termSetIdResult := .ok "termset-id"
        sitesResult := .ok []
        projectsResult := .error "http 500"
        statusResult := .ok []
        columnConfigResult := .ok []
        statusSectionsResult := .ok []
        phaseTermsResult := .ok [] }).1 "http 500" (by rfl)

end ProjectOverview
